import Mathlib

/-!
Verification of the Kaleidoscope front end (src/main.cpp): a shallow
embedding of its lexer (`Parser::GetToken`), recursive-descent /
precedence-climbing parser (`Parser::ParseExpression` and friends), and
AST-lowering pass (`*AST::CodeGen`), together with theorems checking the
natural-language specification against it.

Modelling conventions:
* The character source (`Parser::CharStream`) is a `List Char`; the C++
  lexer keeps a one-character pushback buffer `last_char` initialised to
  `' '` and a stream that returns `EOF` forever once exhausted, so the
  lexer state is the list `last_char :: remaining-characters`, with `[]`
  standing for `last_char = EOF`.
* `double` values are modelled as exact rationals `ℚ`; every numeric
  literal appearing in a claim (1, 2, 3, 1.2, ...) is exactly
  representable, so no floating-point rounding is involved.
* C `ctype` classifiers are reproduced for the ASCII range via code
  points (`isSpaceC`, `isAlphaC`, ...), matching `isspace`/`isalpha`/
  `isdigit`/`isalnum` in the default locale.
-/

namespace Kaleido

/-- C `isspace`: space (32), and 9–13 = tab, newline, vtab, formfeed, cr. -/
def isSpaceC (c : Char) : Bool := c.toNat = 32 || (9 ≤ c.toNat && c.toNat ≤ 13)

/-- C `isdigit`: code points 48–57, i.e. 0-9. -/
def isDigitC (c : Char) : Bool := 48 ≤ c.toNat && c.toNat ≤ 57

/-- C `isalpha`: A-Z (65–90) and a-z (97–122). -/
def isAlphaC (c : Char) : Bool :=
  (65 ≤ c.toNat && c.toNat ≤ 90) || (97 ≤ c.toNat && c.toNat ≤ 122)

/-- C `isalnum`: letters or digits. -/
def isAlnumC (c : Char) : Bool := isAlphaC c || isDigitC c

/-- The guard of the numeric-literal scan loop in `Parser::GetToken`
(line 349/356): `isdigit(last_char) || last_char == '.'`. -/
def isDigitDot (c : Char) : Bool := isDigitC c || c == '.'

/-- Tokens, after `enum Token` (src/main.cpp lines 67-74).  The C++ lexer
returns an `int` that is either one of the negative enumerators (with the
side registers `g_identifier_str` / `g_number_val` holding the payload) or
the ASCII code of a single character; here each token carries its payload
directly. -/
inductive Tok where
  | eof
  | kwDef
  | kwExtern
  | ident (s : String)
  | num (v : ℚ)
  | chr (c : Char)
deriving DecidableEq, Repr

/-- Whether a token is `TOKEN_IDENTIFIER`. -/
def Tok.isIdentTok : Tok → Bool
  | .ident _ => true
  | _ => false

/-- The identifier text carried by an identifier token (`""` otherwise). -/
def Tok.identStr : Tok → String
  | .ident s => s
  | _ => ""

/-- Identifier scan loop of `GetToken` (lines 330-334): keep accumulating
while `isalnum`; the first (alphabetic) character is already in `acc`. -/
def scanIdent : List Char → String → String × List Char
  | [], acc => (acc, [])
  | c :: cs, acc => if isAlnumC c then scanIdent cs (acc.push c) else (acc, c :: cs)

/-- Numeric scan loop of `GetToken` (lines 351-356): keep accumulating
while `isdigit(c) || c == '.'`; the first character is already in `acc`. -/
def scanNum : List Char → List Char → List Char × List Char
  | [], acc => (acc, [])
  | c :: cs, acc => if isDigitDot c then scanNum cs (acc ++ [c]) else (acc, c :: cs)

/-- Value of a digit string read in base 10. -/
def digitsToNat (ds : List Char) : ℕ := ds.foldl (fun n c => 10 * n + (c.toNat - 48)) 0

/-- Value of a fraction-digit string: `fracToRat [d1, d2, ...] = 0.d1d2...`. -/
def fracToRat : List Char → ℚ
  | [] => 0
  | c :: cs => (((c.toNat - 48 : ℕ) : ℚ) + fracToRat cs) / 10

/-- Behaviour of C `strtod(s, nullptr)` on the strings the lexer can hand
it (digits and `'.'` only, so no sign, exponent or hex part can occur):
the longest initial prefix of the form `digits [ '.' digits ]` containing
at least one digit is converted; if there is no such prefix (e.g. `"."`
or `".."`), no conversion is performed and the result is 0. -/
def strtodDD (s : List Char) : ℚ :=
  let ip := s.takeWhile isDigitC
  let rest := s.dropWhile isDigitC
  match rest with
  | '.' :: rest2 =>
    let fp := rest2.takeWhile isDigitC
    if ip.isEmpty && fp.isEmpty then 0
    else ((digitsToNat ip : ℚ) + fracToRat fp)
  | _ => (digitsToNat ip : ℚ)

mutual
/-- Whitespace/comment skipping of `GetToken`.  The C++ code skips
whitespace in a loop (lines 322-326), and on `'#'` discards characters
through end-of-line and then re-invokes `GetToken` itself (lines 361-371).
Since that restart first skips whitespace again, the whitespace and
comment skipping is factored here into one pair of structurally recursive
functions; `skipJunk` returns the state at the first character that is
neither whitespace nor starts a comment ( `[]` meaning `EOF`). -/
def skipJunk : List Char → List Char
  | [] => []
  | c :: cs =>
    if isSpaceC c then skipJunk cs
    else if c = '#' then skipJunkComment cs
    else c :: cs

/-- Comment-discard loop (lines 363-366): consume until end-of-line or
end-of-input; a terminating newline is itself whitespace, so the restart
of `GetToken` continues skipping from the character after it. -/
def skipJunkComment : List Char → List Char
  | [] => []
  | c :: cs => if c = '\n' ∨ c = '\r' then skipJunk cs else skipJunkComment cs
end

/-- `Parser::GetToken` (lines 320-381): skip whitespace and comments, then
classify: alphabetic start → identifier / keyword, digit-or-dot start →
number via `strtod`, end-of-input → `eof`, anything else → the single
character itself. -/
def getToken (s : List Char) : Tok × List Char :=
  match skipJunk s with
  | [] => (.eof, [])
  | c :: cs =>
    if isAlphaC c then
      let p := scanIdent cs (String.mk [c])
      if p.1 = "def" then (.kwDef, p.2)
      else if p.1 = "extern" then (.kwExtern, p.2)
      else (.ident p.1, p.2)
    else if isDigitDot c then
      let p := scanNum cs [c]
      (.num (strtodDD p.1), p.2)
    else
      (.chr c, cs)

/-- Run the lexer to a token list.  Each produced non-`eof` token consumes
at least one character, so `length + 1` calls always reach `eof`; the
trailing `eof` itself is not stored (`curTok` below reads `eof` past the
end, matching a lexer that returns `TOKEN_EOF` forever). -/
def tokenizeAux : ℕ → List Char → List Tok
  | 0, _ => []
  | n + 1, s =>
    match getToken s with
    | (.eof, _) => []
    | (t, s') => t :: tokenizeAux n s'

/-- Tokenize a whole input string; the leading `' '` is the initial value
of the pushback buffer `last_char` (line 272). -/
def tokenize (str : String) : List Tok := tokenizeAux (str.length + 1) (' ' :: str.data)

mutual
/-- Inputs consisting only of whitespace and `#`-comments (a comment runs
from `#` through end-of-line or end-of-input). -/
def wsCommentOnly : List Char → Bool
  | [] => true
  | c :: cs => if isSpaceC c then wsCommentOnly cs else (c = '#') && commentBody cs

/-- Rest of a comment: arbitrary characters through end-of-line (or
end-of-input), after which only whitespace and comments may follow. -/
def commentBody : List Char → Bool
  | [] => true
  | c :: cs => if c = '\n' ∨ c = '\r' then wsCommentOnly cs else commentBody cs
end

/-! ## Parser

The C++ parser holds one token of lookahead (`g_current_token`); since the
lexer never depends on parser state, the stream is pre-tokenized and the
parser state is the `List Tok` whose head is the current token, with the
exhausted stream reading `eof` forever. -/

/-- The current token (`g_current_token`); past the end the lexer returns
`TOKEN_EOF` forever. -/
def curTok : List Tok → Tok
  | [] => .eof
  | t :: _ => t

/-- `GetNextToken`: advance to the next token. -/
def advance : List Tok → List Tok
  | [] => []
  | _ :: ts => ts

/-- The operator-precedence table `g_binop_precedence` (lines 63-64). -/
def g_binop_precedence : List (Char × Int) := [('<', 10), ('+', 20), ('-', 20), ('*', 40)]

/-- `Parser::GetTokenPrecedence` (lines 392-403): look the current token
up in the table, `-1` if absent.  Only single-character tokens can match,
since the keyword/identifier/number/eof token codes are negative. -/
def getTokenPrecedence (t : Tok) : Int :=
  match t with
  | .chr c =>
    match g_binop_precedence.find? (fun p => p.1 == c) with
    | some p => p.2
    | none => -1
  | _ => -1

mutual
/-- Expression AST nodes (`NumberExprAST`, `VariableExprAST`,
`BinaryExprAST`, `CallExprAST`).  The C++ code passes expression subtrees
as `unique_ptr<ExprAST>`, which may be null (`ParsePrimary` returns
`nullptr` on an unexpected token and `ParseBinOpRhs` embeds such results
unchecked), so a null expression pointer is the explicit node `nullE`. -/
inductive Expr where
  | num (v : ℚ)
  | var (nm : String)
  | binop (op : Char) (lhs rhs : Expr)
  | call (callee : String) (args : ExprList)
  | nullE

/-- Argument list of a `CallExprAST` (`vector<unique_ptr<ExprAST>>`),
as a mutually defined list so that recursion over it stays structural. -/
inductive ExprList where
  | nil
  | cons (e : Expr) (es : ExprList)
end

/-- `PrototypeAST`: a function name and its parameter names. -/
structure Prototype where
  name : String
  args : List String
deriving DecidableEq, Repr

/-- `FunctionAST`: a prototype plus a body expression. -/
structure FunctionAST where
  proto : Prototype
  body : Expr

/-- `Parser::ParseNumberExpr` (lines 405-410): build a literal from
`g_number_val` and advance.  (Reaching this with a non-number current
token would read a stale `g_number_val` register; `ParsePrimary` only
calls it on `TOKEN_NUMBER`, and the stale value is modelled as 0.) -/
def parseNumberExpr (ts : List Tok) : Expr × List Tok :=
  match curTok ts with
  | .num v => (.num v, advance ts)
  | _ => (.num 0, advance ts)

mutual
/-- `Parser::ParsePrimary` (lines 457-470): dispatch on the current token;
anything but an identifier, a number or `'('` yields a null expression.
All parsing functions take explicit fuel, decremented at every mutual
call, so that recursion is structural; claims are stated either at
concrete inputs or with enough fuel quantified in. -/
def parsePrimary : ℕ → List Tok → Expr × List Tok
  | 0, ts => (.nullE, ts)
  | n + 1, ts =>
    match curTok ts with
    | .ident _ => parseIdentifierExpr n ts
    | .num _ => parseNumberExpr ts
    | .chr c => if c = '(' then parseParenExpr n ts else (.nullE, ts)
    | _ => (.nullE, ts)

/-- `Parser::ParseParenExpr` (lines 413-419): eat `'('`, parse an
expression, eat `')'` — without checking that it actually is `')'`. -/
def parseParenExpr : ℕ → List Tok → Expr × List Tok
  | 0, ts => (.nullE, ts)
  | n + 1, ts =>
    let r := parseExpression n (advance ts)
    (r.1, advance r.2)

/-- `Parser::ParseIdentifierExpr` (lines 424-451): a lone identifier is a
variable reference; `identifier '('` starts a call whose arguments are
parsed by the loop in `parseArgsLoop`. -/
def parseIdentifierExpr : ℕ → List Tok → Expr × List Tok
  | 0, ts => (.nullE, ts)
  | n + 1, ts =>
    let id := match curTok ts with | .ident s => s | _ => ""
    let ts1 := advance ts
    if curTok ts1 = .chr '(' then
      let r := parseArgsLoop n (advance ts1)
      (.call id r.1, advance r.2)
    else
      (.var id, ts1)

/-- Argument loop of `ParseIdentifierExpr` (lines 436-447): while the
current token is not `')'`, parse an expression; afterwards, if the
current token is `')'` stop, otherwise consume exactly one token as a
separator — whatever it is (the source comments it `// eat ,` but never
checks) — and continue. -/
def parseArgsLoop : ℕ → List Tok → ExprList × List Tok
  | 0, ts => (.nil, ts)
  | n + 1, ts =>
    if curTok ts = .chr ')' then (.nil, ts)
    else
      let r := parseExpression n ts
      if curTok r.2 = .chr ')' then (.cons r.1 .nil, r.2)
      else
        let r2 := parseArgsLoop n (advance r.2)
        (.cons r.1 r2.1, r2.2)

/-- `Parser::ParseBinOpRhs` (lines 472-501): precedence climbing.  While
the current operator's precedence is at least `minPrec`, consume it,
parse a primary as the right operand, absorb any following
strictly-higher-precedence operators into that operand recursively
(with `minPrec` = current precedence + 1), fold into a `binop`, repeat.
The operator character is the current token's ASCII code (the branch is
only reachable with precedence ≥ 0, hence on a `chr` token). -/
def parseBinOpRhs : ℕ → Int → Expr → List Tok → Expr × List Tok
  | 0, _, lhs, ts => (lhs, ts)
  | n + 1, minPrec, lhs, ts =>
    let currentPrec := getTokenPrecedence (curTok ts)
    if currentPrec < minPrec then (lhs, ts)
    else
      let binop := match curTok ts with | .chr c => c | _ => ' '
      let ts1 := advance ts
      let r := parsePrimary n ts1
      let nextPrec := getTokenPrecedence (curTok r.2)
      let r2 := if currentPrec < nextPrec then parseBinOpRhs n (currentPrec + 1) r.1 r.2 else r
      parseBinOpRhs n minPrec (.binop binop lhs r2.1) r2.2

/-- `Parser::ParseExpression` (lines 505-509): a primary followed by
`ParseBinOpRhs` with minimum precedence 0. -/
def parseExpression : ℕ → List Tok → Expr × List Tok
  | 0, ts => (.nullE, ts)
  | n + 1, ts =>
    let r := parsePrimary n ts
    parseBinOpRhs n 0 r.1 r.2
end

/-- Run `ParseExpression` on a token stream with ample fuel (the parser
consumes at least one token per two levels of nesting, so a small linear
bound suffices; all uses below are at concrete or fixed-shape streams). -/
def parseExpressionToks (ts : List Tok) : Expr × List Tok :=
  parseExpression (2 * ts.length + 16) ts

/-- Lex and parse one expression from a source string. -/
def parseExpressionStr (s : String) : Expr := (parseExpressionToks (tokenize s)).1

/-- Parameter-collecting loop of `Parser::ParsePrototype` (lines 517-521):
`while (GetNextToken() == TOKEN_IDENTIFIER) collect;` — advance first,
then collect consecutive identifier tokens; stops at (and keeps) the
first non-identifier token. -/
def collectParams : List Tok → List String × List Tok
  | [] => ([], [])
  | [_] => ([], [])
  | _ :: .ident s :: rest2 => let r := collectParams (.ident s :: rest2); (s :: r.1, r.2)
  | _ :: t :: rest2 => ([], t :: rest2)

/-- `Parser::ParsePrototype` (lines 513-524): take the function name from
the current identifier, advance once *without checking for `'('`*,
collect consecutive identifiers as parameters, then advance once more
*without checking for `')'`*.  (A non-identifier name token would read
the stale `g_identifier_str` register, modelled as `""`; both callers
reach this on malformed input only.) -/
def parsePrototype (ts : List Tok) : Prototype × List Tok :=
  let fnName := match curTok ts with | .ident s => s | _ => ""
  let r := collectParams (advance ts)
  (⟨fnName, r.1⟩, advance r.2)

/-- `Parser::ParseDefinition` (lines 527-533): eat `def`, parse a
prototype, parse the body expression. -/
def parseDefinition (fuel : ℕ) (ts : List Tok) : FunctionAST × List Tok :=
  let p := parsePrototype (advance ts)
  let b := parseExpression fuel p.2
  (⟨p.1, b.1⟩, b.2)

/-- `Parser::ParseExtern` (lines 536-540): eat `extern`, parse a
prototype only. -/
def parseExternDecl (ts : List Tok) : Prototype × List Tok :=
  parsePrototype (advance ts)

/-- `Parser::ParseTopLevelExpr` (lines 543-548): wrap a bare expression
in an anonymous zero-argument function. -/
def parseTopLevelExpr (fuel : ℕ) (ts : List Tok) : FunctionAST × List Tok :=
  let r := parseExpression fuel ts
  (⟨⟨"", []⟩, r.1⟩, r.2)

/-! ## Code generation

The lowering pass (`*AST::CodeGen`) emits LLVM IR through an `IRBuilder`.
Values (`llvm::Value *`) are modelled as the expression trees the builder
calls construct; `nullV` stands for a null `Value *` (the `default:`
branch of `BinaryExprAST::CodeGen` returns `nullptr`).  Note that the
file mixes two sets of backend objects: the globals
`g_llvm_context`/`g_module` (used by `PrototypeAST::CodeGen`, lines
198-204) and the members of `ASTContext` (used by the lookups in
`FunctionAST::CodeGen` line 232 and `CallExprAST::CodeGen` line 172);
the two modules are therefore modelled as two separate registries. -/

/-- An LLVM `Function *`: its name and its (named) formal arguments.
`PrototypeAST::CodeGen` names each argument after the corresponding
parameter (lines 206-210). -/
structure Func where
  name : String
  args : List String
deriving DecidableEq, Repr

/-- IR value handles produced by the builder calls in the `CodeGen`
methods.  `argV f i nm` is the handle of argument `i` (named `nm`) of
function `f` (the `&arg` pointers registered in the symbol table). -/
inductive Value where
  | constFP (q : ℚ)
  | argV (fn : String) (idx : ℕ) (nm : String)
  | fcmpULT (a b : Value)
  | uitofp (a : Value)
  | fadd (a b : Value)
  | fsub (a b : Value)
  | fmul (a b : Value)
  | callV (callee : String) (args : List Value)
  | nullV

/-- Fatal conditions during lowering: `unboundIdentifier` models the
`std::out_of_range` thrown by `map::at` in `ASTContext::namedValue`
(line 38); `nullDeref` models invoking `CodeGen` through a null
`ExprAST *`; `unresolvedCallee` models `CreateCall` on the null
`Function *` returned by a failed `getFunction`. -/
inductive CGErr where
  | unboundIdentifier (nm : String)
  | nullDeref
  | unresolvedCallee (nm : String)
deriving DecidableEq, Repr

/-- The mutable lowering state: the global `g_module`'s function list
(where `PrototypeAST::CodeGen` registers functions), the `ASTContext`
member `module`'s function list (which `FunctionAST::CodeGen` and
`CallExprAST::CodeGen` query, and which no code path ever writes), and
`ASTContext::namedValues`, the per-function symbol table. -/
structure CGState where
  gModule : List Func
  ctxModule : List Func
  named : List (String × Value)

/-- `Module::getFunction`: look a function up by name.  (LLVM renames a
second function registered under an existing name, so lookup finds the
first registration.) -/
def getFunction (m : List Func) (nm : String) : Option Func :=
  m.find? (fun f => f.name == nm)

/-- `map<string, Value *>` insertion (`namedValues[name] = value`):
replace an existing binding or append a new one. -/
def mapInsert : List (String × Value) → String → Value → List (String × Value)
  | [], nm, v => [(nm, v)]
  | (k, w) :: rest, nm, v =>
    if k = nm then (k, v) :: rest else (k, w) :: mapInsert rest nm v

/-- `map<string, Value *>` lookup, as used by `namedValues.at(name)`. -/
def mapFind (l : List (String × Value)) (nm : String) : Option Value :=
  (l.find? (fun p => p.1 == nm)).map (fun p => p.2)

mutual
/-- `ExprAST::CodeGen` over each node kind (lines 100-179), reading the
state (symbol table and modules) but never writing it:
`NumberExprAST` emits a floating constant; `VariableExprAST` looks the
name up via `namedValues.at`, whose miss *throws* (modelled as
`.error`), never returning a default; `BinaryExprAST` lowers both
operands first and then switches on the operator — `'<'` emits
`CreateFCmpULT` followed by `CreateUIToFP`, `'+'`/`'-'`/`'*'` the
matching arithmetic instruction, anything else silently returns the null
value; `CallExprAST` resolves the callee in `context.module`, lowers the
arguments left-to-right (possibly-null results are passed through), and
emits the call — a null callee crashes in `CreateCall`. -/
def exprCodeGen : Expr → CGState → Except CGErr Value
  | .nullE, _ => .error .nullDeref
  | .num v, _ => .ok (.constFP v)
  | .var nm, st =>
    match mapFind st.named nm with
    | some v => .ok v
    | none => .error (.unboundIdentifier nm)
  | .binop op l r, st =>
    match exprCodeGen l st with
    | .error e => .error e
    | .ok lv =>
      match exprCodeGen r st with
      | .error e => .error e
      | .ok rv =>
        if op = '<' then .ok (.uitofp (.fcmpULT lv rv))
        else if op = '+' then .ok (.fadd lv rv)
        else if op = '-' then .ok (.fsub lv rv)
        else if op = '*' then .ok (.fmul lv rv)
        else .ok .nullV
  | .call callee args, st =>
    let calleeFn := getFunction st.ctxModule callee
    match codeGenArgs args st with
    | .error e => .error e
    | .ok vs =>
      match calleeFn with
      | some _ => .ok (.callV callee vs)
      | none => .error (.unresolvedCallee callee)

/-- Lowering of a call's argument vector, left to right (lines 173-177);
an exception from any argument propagates. -/
def codeGenArgs : ExprList → CGState → Except CGErr (List Value)
  | .nil, _ => .ok []
  | .cons e es, st =>
    match exprCodeGen e st with
    | .error er => .error er
    | .ok v =>
      match codeGenArgs es st with
      | .error er => .error er
      | .ok vs => .ok (v :: vs)
end

/-- `PrototypeAST::CodeGen` (lines 195-212): create the function (all
parameters and result of the one numeric type), register it *in the
global `g_module`*, and name its arguments after the parameters. -/
def protoCodeGen (p : Prototype) (st : CGState) : Func × CGState :=
  let fn : Func := ⟨p.name, p.args⟩
  (fn, { st with gModule := st.gModule ++ [fn] })

/-- The symbol-table bindings for a function's formal arguments, in
order: each parameter name is bound to that argument's value handle. -/
def paramValues (fn : Func) : List (String × Value) :=
  (List.range fn.args.length).zip fn.args |>.map fun p => (p.2, Value.argV fn.name p.1 p.2)

/-- Build the symbol table of `FunctionAST::CodeGen` lines 242-247:
`namedClear()` and then one `namedValue(arg.name, &arg)` per argument. -/
def buildNamed (fn : Func) : List (String × Value) :=
  (paramValues fn).foldl (fun m p => mapInsert m p.1 p.2) []

/-- The function object `FunctionAST::CodeGen` lowers into: the result of
`context.module.getFunction(name)` if that lookup succeeds, otherwise the
function freshly created from the prototype. -/
def resolveFunc (f : FunctionAST) (st : CGState) : Func :=
  match getFunction st.ctxModule f.proto.name with
  | some fn => fn
  | none => ⟨f.proto.name, f.proto.args⟩

/-- `FunctionAST::CodeGen` (lines 229-253): query `context.module` for an
existing declaration, lower the prototype only when that fails, create
the entry block (not modelled — no claim concerns block structure), clear
and repopulate the symbol table with the function's arguments, lower the
body, and emit the return.  The state is returned alongside the result
because the C++ state is global: mutations persist even when body
lowering throws. -/
def funcCodeGen (f : FunctionAST) (st : CGState) : Except CGErr Func × CGState :=
  let r :=
    match getFunction st.ctxModule f.proto.name with
    | some fn => (fn, st)
    | none => protoCodeGen f.proto st
  let st2 : CGState := { r.2 with named := buildNamed r.1 }
  match exprCodeGen f.body st2 with
  | .error e => (.error e, st2)
  | .ok _ => (.ok r.1, st2)

/-- Constant evaluation of a lowered value tree, with LLVM's semantics
over exact rationals: `fcmpULT` is unordered-or-less-than, which with no
NaN present is plain `<`, yielding the `i1` 1 or 0 that `uitofp` then
converts to 1.0 or 0.0.  Handles whose value depends on a runtime
environment (arguments, calls) and null handles evaluate to `none`. -/
def evalValue : Value → Option ℚ
  | .constFP q => some q
  | .argV _ _ _ => none
  | .fcmpULT a b =>
    match evalValue a, evalValue b with
    | some x, some y => some (if x < y then 1 else 0)
    | _, _ => none
  | .uitofp a => evalValue a
  | .fadd a b =>
    match evalValue a, evalValue b with
    | some x, some y => some (x + y)
    | _, _ => none
  | .fsub a b =>
    match evalValue a, evalValue b with
    | some x, some y => some (x - y)
    | _, _ => none
  | .fmul a b =>
    match evalValue a, evalValue b with
    | some x, some y => some (x * y)
    | _, _ => none
  | .callV _ _ => none
  | .nullV => none

/-- The empty lowering state: both modules empty, empty symbol table. -/
def cgInit : CGState := ⟨[], [], []⟩

/-! ## Helper lemmas -/

/-- Explicit form of the precedence table lookup. -/
lemma prec_chr (c : Char) : getTokenPrecedence (.chr c) =
    if c = '<' then 10 else if c = '+' then 20 else if c = '-' then 20
    else if c = '*' then 40 else -1 := by
  by_cases h1 : c = '<'
  · subst h1; rfl
  by_cases h2 : c = '+'
  · subst h2; rfl
  by_cases h3 : c = '-'
  · subst h3; rfl
  by_cases h4 : c = '*'
  · subst h4; rfl
  have e1 : (('<' : Char) == c) = false := beq_eq_false_iff_ne.mpr (Ne.symm h1)
  have e2 : (('+' : Char) == c) = false := beq_eq_false_iff_ne.mpr (Ne.symm h2)
  have e3 : (('-' : Char) == c) = false := beq_eq_false_iff_ne.mpr (Ne.symm h3)
  have e4 : (('*' : Char) == c) = false := beq_eq_false_iff_ne.mpr (Ne.symm h4)
  simp [getTokenPrecedence, g_binop_precedence, List.find?, e1, e2, e3, e4, h1, h2, h3, h4]

/-- Only the four tabled operator characters have precedence 0 or more. -/
lemma prec_char_cases (c : Char) (h : 0 ≤ getTokenPrecedence (.chr c)) :
    c = '<' ∨ c = '+' ∨ c = '-' ∨ c = '*' := by
  rw [prec_chr] at h
  split_ifs at h with hc1 hc2 hc3 hc4
  · exact Or.inl hc1
  · exact Or.inr (Or.inl hc2)
  · exact Or.inr (Or.inr (Or.inl hc3))
  · exact Or.inr (Or.inr (Or.inr hc4))
  · omega

/-- On whitespace/comment-only input the junk skipper consumes everything
(joint statement for the two mutually recursive modes, by induction on a
length bound). -/
lemma junk_aux : ∀ (n : ℕ) (cs : List Char), cs.length ≤ n →
    (wsCommentOnly cs = true → skipJunk cs = []) ∧
    (commentBody cs = true → skipJunkComment cs = []) := by
  intro n
  induction n with
  | zero =>
    intro cs h
    have : cs = [] := List.length_eq_zero.mp (Nat.le_zero.mp h)
    subst this
    exact ⟨fun _ => rfl, fun _ => rfl⟩
  | succ n ih =>
    intro cs hlen
    cases cs with
    | nil => exact ⟨fun _ => rfl, fun _ => rfl⟩
    | cons c cs' =>
      have hlen' : cs'.length ≤ n := by simp at hlen; omega
      constructor
      · intro hw
        rw [wsCommentOnly] at hw
        rw [skipJunk]
        by_cases hsp : isSpaceC c = true
        · simp only [hsp, if_true] at hw ⊢
          exact (ih cs' hlen').1 hw
        · simp only [hsp] at hw ⊢
          simp at hw
          simp [hw.1]
          exact (ih cs' hlen').2 hw.2
      · intro hb
        rw [commentBody] at hb
        rw [skipJunkComment]
        by_cases hnl : c = '\n' ∨ c = '\r'
        · simp only [if_pos hnl] at hb ⊢
          exact (ih cs' hlen').1 hb
        · simp only [if_neg hnl] at hb ⊢
          exact (ih cs' hlen').2 hb

/-- The numeric scan accumulates exactly the maximal digit/dot run and
leaves the rest of the stream. -/
lemma scanNum_eq (cs : List Char) : ∀ acc,
    scanNum cs acc = (acc ++ cs.takeWhile isDigitDot, cs.dropWhile isDigitDot) := by
  induction cs with
  | nil => intro acc; simp [scanNum]
  | cons c cs ih =>
    intro acc
    rw [scanNum]
    by_cases h : isDigitDot c = true
    · simp [h, List.takeWhile_cons, List.dropWhile_cons, ih]
    · simp [h, List.takeWhile_cons, List.dropWhile_cons]

/-- A digit-or-dot character is not whitespace, not alphabetic, and not
the comment character. -/
lemma digitdot_classes (c : Char) (h : isDigitDot c = true) :
    isSpaceC c = false ∧ isAlphaC c = false ∧ ¬(c = '#') := by
  simp [isDigitDot, isDigitC] at h
  rcases h with ⟨h1, h2⟩ | h
  · refine ⟨?_, ?_, ?_⟩
    · simp [isSpaceC]; omega
    · simp [isAlphaC]; omega
    · intro hc; subst hc; exact absurd h1 (by decide)
  · subst h
    exact ⟨by decide, by decide, by decide⟩

/-- The parameter loop of `ParsePrototype` collects exactly the leading
identifier tokens of the stream after the already-current token, which it
never examines. -/
lemma collectParams_eq (t : Tok) (rest : List Tok) :
    collectParams (t :: rest) =
      ((rest.takeWhile Tok.isIdentTok).map Tok.identStr, rest.dropWhile Tok.isIdentTok) := by
  induction rest generalizing t with
  | nil => simp [collectParams]
  | cons r rs ih =>
    cases r <;>
      simp [collectParams, List.takeWhile_cons, List.dropWhile_cons,
        Tok.isIdentTok, Tok.identStr, ih]

/-- After lowering a function, the symbol table holds exactly the bindings
of the resolved function object's formal parameters. -/
lemma funcCodeGen_named (f : FunctionAST) (st : CGState) :
    (funcCodeGen f st).2.named = buildNamed (resolveFunc f st) := by
  unfold funcCodeGen resolveFunc
  cases h : getFunction st.ctxModule f.proto.name with
  | none =>
    simp only [h]
    cases exprCodeGen f.body _ <;> simp [protoCodeGen]
  | some fn =>
    simp only [h]
    cases exprCodeGen f.body _ <;> simp

/-- No lowering path writes `context.module`. -/
lemma funcCodeGen_ctxModule (f : FunctionAST) (st : CGState) :
    (funcCodeGen f st).2.ctxModule = st.ctxModule := by
  unfold funcCodeGen
  cases h : getFunction st.ctxModule f.proto.name with
  | none =>
    simp only [h]
    cases exprCodeGen f.body _ <;> simp [protoCodeGen]
  | some fn =>
    simp only [h]
    cases exprCodeGen f.body _ <;> simp

/-! ## Claims -/

/-- C1: for the input "1+2*3", `ParseExpression` (`ParsePrimary` followed
by `ParseBinOpRhs` with minimum precedence 0) returns a tree equivalent
to 1 + (2 * 3): a BinaryOp `'+'` whose left child is the literal 1 and
whose right child is a BinaryOp `'*'` over the literals 2 and 3, because
`'*'` (precedence 40) binds tighter than `'+'` (precedence 20). -/
theorem claim_C1 :
    parseExpressionStr "1+2*3" = .binop '+' (.num 1) (.binop '*' (.num 2) (.num 3))
    ∧ getTokenPrecedence (.chr '*') = 40 ∧ getTokenPrecedence (.chr '+') = 20 :=
  ⟨rfl, rfl, rfl⟩

/-- C2: for the input "1+2-3", `ParseExpression` returns the
left-associative grouping (1 + 2) - 3; and in general `ParseBinOpRhs`
folds two operators of equal (tabled) precedence left-to-right. -/
theorem claim_C2 :
    parseExpressionStr "1+2-3" = .binop '-' (.binop '+' (.num 1) (.num 2)) (.num 3)
    ∧ ∀ (o1 o2 : Char) (a b c : ℚ),
        getTokenPrecedence (.chr o1) = getTokenPrecedence (.chr o2) →
        0 ≤ getTokenPrecedence (.chr o1) →
        (parseExpressionToks [.num a, .chr o1, .num b, .chr o2, .num c]).1 =
          .binop o2 (.binop o1 (.num a) (.num b)) (.num c) := by
  constructor
  · rfl
  · intro o1 o2 a b c h1 h2
    have h2' : 0 ≤ getTokenPrecedence (.chr o2) := h1 ▸ h2
    have A := prec_char_cases o1 h2
    have B := prec_char_cases o2 h2'
    rcases A with rfl | rfl | rfl | rfl <;> rcases B with rfl | rfl | rfl | rfl <;>
      first
        | rfl
        | exact absurd h1 (by decide)

/-- Witness for C2: instantiated at `'+'`/`'-'` (both precedence 20) and
the literals 1, 2, 3. -/
theorem claim_C2_witness :
    getTokenPrecedence (.chr '+') = getTokenPrecedence (.chr '-')
    ∧ 0 ≤ getTokenPrecedence (.chr '+')
    ∧ (parseExpressionToks [.num 1, .chr '+', .num 2, .chr '-', .num 3]).1 =
        .binop '-' (.binop '+' (.num 1) (.num 2)) (.num 3) :=
  ⟨by decide, by decide, claim_C2.2 '+' '-' 1 2 3 (by decide) (by decide)⟩

/-- C3: lowering a Function clears the symbol table and repopulates it
with exactly that function's formal parameters before lowering the body
(the table after `funcCodeGen` is `buildNamed` of the resolved function,
independent of any earlier contents); lowering two Functions in sequence
leaves only the second one's parameter bindings, so a parameter named
"x" of one function never leaks into the other's lowering. -/
theorem claim_C3 :
    (∀ (f : FunctionAST) (st : CGState),
        (funcCodeGen f st).2.named = buildNamed (resolveFunc f st))
    ∧ (∀ (f1 f2 : FunctionAST) (st : CGState), st.ctxModule = [] →
        (funcCodeGen f2 (funcCodeGen f1 st).2).2.named =
          buildNamed ⟨f2.proto.name, f2.proto.args⟩)
    ∧ (∀ (b1 b2 : Expr),
        mapFind ((funcCodeGen ⟨⟨"g", ["x"]⟩, b2⟩
            ((funcCodeGen ⟨⟨"f", ["x"]⟩, b1⟩ cgInit).2)).2.named) "x"
          = some (.argV "g" 0 "x")) := by
  have hB : ∀ (f1 f2 : FunctionAST) (st : CGState), st.ctxModule = [] →
      (funcCodeGen f2 (funcCodeGen f1 st).2).2.named =
        buildNamed ⟨f2.proto.name, f2.proto.args⟩ := by
    intro f1 f2 st h
    rw [funcCodeGen_named]
    unfold resolveFunc
    rw [funcCodeGen_ctxModule, h]
    rfl
  refine ⟨funcCodeGen_named, hB, ?_⟩
  intro b1 b2
  rw [hB ⟨⟨"f", ["x"]⟩, b1⟩ ⟨⟨"g", ["x"]⟩, b2⟩ cgInit rfl]
  rfl

/-- Witness for C3: two concrete functions `f(x)` and `g(x)` lowered in
sequence from the empty state. -/
theorem claim_C3_witness :
    cgInit.ctxModule = [] ∧
    (funcCodeGen ⟨⟨"g", ["x"]⟩, .var "x"⟩
        ((funcCodeGen ⟨⟨"f", ["x"]⟩, .var "x"⟩ cgInit).2)).2.named
      = buildNamed ⟨"g", ["x"]⟩ :=
  ⟨rfl, claim_C3.2.1 ⟨⟨"f", ["x"]⟩, .var "x"⟩ ⟨⟨"g", ["x"]⟩, .var "x"⟩ cgInit rfl⟩

/-- C4: lowering a VariableReference whose name is absent from the
symbol table signals the fatal unbound-identifier condition (the
`map::at` call throws, modelled as `.error`), never a default value; for
every bound name it returns exactly the bound value handle. -/
theorem claim_C4 :
    (∀ (st : CGState) (nm : String), mapFind st.named nm = none →
        exprCodeGen (.var nm) st = .error (.unboundIdentifier nm))
    ∧ (∀ (st : CGState) (nm : String) (v : Value), mapFind st.named nm = some v →
        exprCodeGen (.var nm) st = .ok v) := by
  constructor
  · intro st nm h
    simp [exprCodeGen, h]
  · intro st nm v h
    simp [exprCodeGen, h]

/-- Witness for C4: a table binding only "x"; looking up "y" errors,
looking up "x" returns its handle. -/
theorem claim_C4_witness :
    mapFind (CGState.mk [] [] [("x", .constFP 1)]).named "y" = none
    ∧ exprCodeGen (.var "y") (CGState.mk [] [] [("x", .constFP 1)])
        = .error (.unboundIdentifier "y")
    ∧ mapFind (CGState.mk [] [] [("x", .constFP 1)]).named "x" = some (.constFP 1)
    ∧ exprCodeGen (.var "x") (CGState.mk [] [] [("x", .constFP 1)]) = .ok (.constFP 1) :=
  ⟨rfl, claim_C4.1 _ "y" rfl, rfl, claim_C4.2 _ "x" _ rfl⟩

/-- C5 evaluated at its failing input: after lowering the prototype
`f(x)` (an extern declaration), the declaration sits in the global
`g_module`, but the lookup `FunctionAST::CodeGen` performs targets the
never-written `context.module` and finds nothing, so lowering
`def f(x) ...` lowers the prototype a second time instead of reusing the
existing declaration: `g_module` ends up with two functions named "f". -/
theorem claim_C5_bug :
    getFunction ((protoCodeGen ⟨"f", ["x"]⟩ cgInit).2).gModule "f" = some ⟨"f", ["x"]⟩
    ∧ getFunction ((protoCodeGen ⟨"f", ["x"]⟩ cgInit).2).ctxModule "f" = none
    ∧ (((funcCodeGen ⟨⟨"f", ["x"]⟩, .var "x"⟩
          ((protoCodeGen ⟨"f", ["x"]⟩ cgInit).2)).2.gModule.filter
            (fun fn => fn.name == "f")).length) = 2 :=
  ⟨rfl, rfl, rfl⟩

/-- C6 counterexample: the scanned text "1.2.3" (a maximal digit/dot run
with multiple dots, hence not a valid number) does *not* degenerate to 0:
`strtod` converts its longest valid prefix "1.2", so the token value is
6/5 ≠ 0. -/
theorem claim_C6_counterexample :
    (getToken ("1.2.3".data)).1 = .num (strtodDD ("1.2.3".data))
    ∧ strtodDD ("1.2.3".data) = 6 / 5
    ∧ (6 / 5 : ℚ) ≠ 0 := by
  refine ⟨rfl, ?_, by norm_num⟩
  show ((1 : ℕ) : ℚ) + (((2 : ℕ) : ℚ) + 0) / 10 = 6 / 5
  norm_num

/-- C6 as amended: for every scanned numeric-literal text the lexer
emits a number token and never fails; the token's value is the
longest-valid-prefix `strtod` parse of that text, which is 0 exactly
when no valid numeric prefix exists (e.g. a bare "." or ".."), not for
every malformed text. -/
theorem claim_C6_amended :
    (∀ (c : Char) (cs : List Char), isDigitDot c = true →
        getToken (c :: cs) =
          (.num (strtodDD (c :: cs.takeWhile isDigitDot)), cs.dropWhile isDigitDot))
    ∧ strtodDD ['.'] = 0
    ∧ (∀ rest : List Char, strtodDD ('.' :: '.' :: rest) = 0) := by
  refine ⟨?_, rfl, ?_⟩
  · intro c cs h
    obtain ⟨hsp, hal, hh⟩ := digitdot_classes c h
    have h1 : skipJunk (c :: cs) = c :: cs := by
      rw [skipJunk]
      simp [hsp, hh]
    simp [getToken, h1, hal, h, scanNum_eq]
  · intro rest
    have hd : isDigitC '.' = false := rfl
    simp [strtodDD, List.takeWhile_cons, List.dropWhile_cons, hd]

/-- Witness for C6 (amended): the single digit "7" is scanned into a
number token valued by `strtod`. -/
theorem claim_C6_witness :
    isDigitDot '7' = true
    ∧ getToken ['7'] =
        (.num (strtodDD ('7' :: List.takeWhile isDigitDot [])), List.dropWhile isDigitDot []) :=
  ⟨rfl, claim_C6_amended.1 '7' [] rfl⟩

/-- C7: when `ParseIdentifierExpr` parses a call, after each argument
expression a current token that is not `')'` is consumed as a separator
— whatever token it is (any token at which expression parsing stops,
i.e. of precedence −1) — then the closing `')'` is consumed and a Call
carrying the arguments in order is returned.  (Fuel 8 is ample for this
fixed-shape six-token stream.) -/
theorem claim_C7 :
    ∀ (f : String) (sep : Tok) (a b : ℚ) (rest : List Tok),
      getTokenPrecedence sep = -1 → ¬(sep = .chr ')') →
      parseIdentifierExpr 8 (.ident f :: .chr '(' :: .num a :: sep :: .num b :: .chr ')' :: rest)
        = (.call f (.cons (.num a) (.cons (.num b) .nil)), rest) := by
  intro f sep a b rest hp hs
  have hpr : getTokenPrecedence (.chr ')') = -1 := rfl
  have e1 : parseExpression 6 (.num a :: sep :: .num b :: .chr ')' :: rest)
      = (.num a, sep :: .num b :: .chr ')' :: rest) := by
    simp [parseExpression, parsePrimary, parseNumberExpr, parseBinOpRhs, curTok, advance, hp]
  have e2 : parseExpression 5 (.num b :: .chr ')' :: rest) = (.num b, .chr ')' :: rest) := by
    simp [parseExpression, parsePrimary, parseNumberExpr, parseBinOpRhs, curTok, advance, hpr]
  simp [parseIdentifierExpr, parseArgsLoop, curTok, advance, hs, e1, e2]

/-- Witness for C7: the separator instantiated at the conventional comma. -/
theorem claim_C7_witness :
    getTokenPrecedence (.chr ',') = -1
    ∧ ¬((Tok.chr ',') = .chr ')')
    ∧ parseIdentifierExpr 8 [.ident "f", .chr '(', .num 1, .chr ',', .num 2, .chr ')']
        = (.call "f" (.cons (.num 1) (.cons (.num 2) .nil)), []) :=
  ⟨rfl, by decide, claim_C7 "f" (.chr ',') 1 2 [] rfl (by decide)⟩

/-- C8: on input consisting only of whitespace and `#`-comments, token
acquisition yields the end-of-input token with the stream exhausted (and
at an exhausted stream it yields `eof` again, so exactly one `eof` is
ever delivered to the driver loop, which stops at the first one). -/
theorem claim_C8 :
    (∀ cs : List Char, wsCommentOnly cs = true → getToken (' ' :: cs) = (.eof, []))
    ∧ getToken [] = (.eof, []) := by
  constructor
  · intro cs h
    have h1 : skipJunk (' ' :: cs) = [] := by
      rw [skipJunk]
      simp only [show isSpaceC ' ' = true from rfl, if_true]
      exact (junk_aux cs.length cs le_rfl).1 h
    simp [getToken, h1]
  · rfl

/-- Witness for C8: whitespace, a comment ended by a newline, and a
comment ended by end-of-input. -/
theorem claim_C8_witness :
    wsCommentOnly (" \t# hello\n # again".data) = true
    ∧ getToken (' ' :: (" \t# hello\n # again".data)) = (.eof, []) :=
  ⟨by decide, claim_C8.1 _ (by decide)⟩

/-- C9: lowering a BinaryOp `'<'` emits an unsigned-less-than floating
comparison (`CreateFCmpULT`) followed by a boolean-to-float conversion
(`CreateUIToFP`) of its result; lowering "1<2" produces a value that
evaluates to 1.0 and "2<1" one that evaluates to 0.0. -/
theorem claim_C9 :
    (∀ (l r : Expr) (st : CGState) (lv rv : Value),
        exprCodeGen l st = .ok lv → exprCodeGen r st = .ok rv →
        exprCodeGen (.binop '<' l r) st = .ok (.uitofp (.fcmpULT lv rv)))
    ∧ parseExpressionStr "1<2" = .binop '<' (.num 1) (.num 2)
    ∧ exprCodeGen (parseExpressionStr "1<2") cgInit
        = .ok (.uitofp (.fcmpULT (.constFP 1) (.constFP 2)))
    ∧ evalValue (.uitofp (.fcmpULT (.constFP 1) (.constFP 2))) = some 1
    ∧ parseExpressionStr "2<1" = .binop '<' (.num 2) (.num 1)
    ∧ exprCodeGen (parseExpressionStr "2<1") cgInit
        = .ok (.uitofp (.fcmpULT (.constFP 2) (.constFP 1)))
    ∧ evalValue (.uitofp (.fcmpULT (.constFP 2) (.constFP 1))) = some 0 := by
  refine ⟨?_, rfl, rfl, rfl, rfl, rfl, rfl⟩
  intro l r st lv rv h1 h2
  simp [exprCodeGen, h1, h2]

/-- Witness for C9: the general `'<'`-lowering shape applied to the two
constant operands of "1<2". -/
theorem claim_C9_witness :
    exprCodeGen (.num 1) cgInit = .ok (.constFP 1)
    ∧ exprCodeGen (.num 2) cgInit = .ok (.constFP 2)
    ∧ exprCodeGen (.binop '<' (.num 1) (.num 2)) cgInit
        = .ok (.uitofp (.fcmpULT (.constFP 1) (.constFP 2))) :=
  ⟨rfl, rfl, claim_C9.1 (.num 1) (.num 2) cgInit (.constFP 1) (.constFP 2) rfl rfl⟩

/-- C10: `ParsePrototype` takes the function name, consumes the next
token without checking that it is `'('` (the result does not depend on
that token at all), collects parameters only from the immediately
following consecutive identifier tokens, and finally consumes one more
token without checking that it is `')'`; hence an identifier immediately
following the function name is discarded and never appears among the
parameters. -/
theorem claim_C10 :
    ∀ (nm : String) (t : Tok) (rest : List Tok),
      parsePrototype (.ident nm :: t :: rest) =
        (⟨nm, (rest.takeWhile Tok.isIdentTok).map Tok.identStr⟩,
          advance (rest.dropWhile Tok.isIdentTok)) := by
  intro nm t rest
  simp [parsePrototype, curTok, advance, collectParams_eq]

/-- Witness for C10: in `foo a b)` the identifier `a` that follows the
name is discarded; only `b` becomes a parameter. -/
theorem claim_C10_witness :
    parsePrototype [.ident "foo", .ident "a", .ident "b", .chr ')'] = (⟨"foo", ["b"]⟩, []) := by
  rw [claim_C10]
  rfl

end Kaleido
